import Mathlib

/-!
# ManagedFile (upup/pkg/fi/fitasks/managedfile.go)

A shallow embedding of the `ManagedFile` task: `Find`, `CheckChanges`,
`getACL`, `Render`, `getBasePath` and `RenderTerraform`.

Go pointers that may be nil are `Option`s, a `(value, error)` return is an
`Except`, and the collaborators the file calls (the vfs paths, the cluster
ACL resolver, the Terraform writer) are the fields of `Env`, each an explicit
state transformer over the storage world `W` and the Terraform target `T`.
-/

namespace ManagedFileTask

/-! ## Data model -/

/-- A byte sequence (`[]byte`). -/
abbrev Bytes := List (Fin 256)

/-- The `fi.Lifecycle` string type. -/
abbrev Lifecycle := String

/-- An error value produced by a collaborator (vfs, acls, a resource):
its message and what `os.IsNotExist` answers for it. -/
structure ExtErr where
  msg : String
  notExist : Bool
deriving DecidableEq, Repr

/-- The concrete types behind the `vfs.Path` interface that the file
distinguishes: `*vfs.S3Path`, `*vfs.MemFSPath` (with the answer of its
`IsClusterReadable()`), and every other implementation. -/
inductive Path where
  | S3Path (path : String)
  | MemFSPath (path : String) (clusterReadable : Bool)
  | Other (path : String)
deriving DecidableEq, Repr

/-- The method `p.Path()`. -/
def Path.PathStr : Path → String
  | .S3Path s => s
  | .MemFSPath s _ => s
  | .Other s => s

/-- The `vfs.ACL` interface: `*vfs.S3Acl` with its `RequestACL` field, or any
other implementation. -/
inductive ACL where
  | S3Acl (RequestACL : Option String)
  | OtherAcl (repr : String)
deriving DecidableEq, Repr

/-- The errors and aborts of this file, one constructor per place that makes
one. -/
inductive Err where
  /-- The error `fi.CannotChangeField(key)` -/
  | CannotChangeField (key : String)
  /-- The error `fi.RequiredField(key)` -/
  | RequiredField (key : String)
  /-- The error `field.Required(field.NewPath(path), detail)` -/
  | FieldRequired (path : String) (detail : String)
  /-- The error `fmt.Errorf("error reading contents of ManagedFile: %v", err)` -/
  | readingContents (cause : ExtErr)
  /-- The error `fmt.Errorf("error parsing ManagedFile Base %q: %v", base, err)` -/
  | parsingBase (base : String) (cause : ExtErr)
  /-- The error `fmt.Errorf("the %q path is intended for use in tests", p.Path())` -/
  | testOnlyPath (path : String)
  /-- The error `fmt.Errorf("the %q path does not support public ACL", p.Path())` -/
  | noPublicACL (path : String)
  /-- The error `fmt.Errorf("error creating ManagedFile %q: %v", location, err)` -/
  | creating (location : String) (cause : ExtErr)
  /-- The error `fmt.Errorf("path %q must be of a type that can render in Terraform", p)` -/
  | notTerraformPath (p : Path)
  /-- An error of a collaborator returned as it is (`return nil, err`). -/
  | ext (e : ExtErr)
  /-- A nil pointer or nil interface is dereferenced: the call aborts with a
  run-time panic instead of returning. -/
  | nilDereference
deriving DecidableEq, Repr

/-- Modelled from the spec: the content resource `fi.Resource` and
`fi.ResourceAsBytes`, which live outside this file. The spec gives a content
resource two capabilities, `open() -> readable stream | error` and
`materialize() -> bytes | error`; a stream is represented by the bytes it
yields. -/
structure Resource where
  Open : Except ExtErr Bytes
  AsBytes : Except ExtErr Bytes

/-- Modelled from the spec: `fi.NewBytesResource(data)`, the resource that
opens to and materialises as `data`. -/
def NewBytesResource (data : Bytes) : Resource :=
  { Open := .ok data, AsBytes := .ok data }

/-- The struct `ManagedFile`. -/
structure ManagedFile where
  Name : Option String
  Lifecycle : Lifecycle
  Base : Option String
  Location : Option String
  Contents : Option Resource
  PublicACL : Option Bool

/-- The generic `fi.ValueOf`: the pointee, or the zero value for nil. -/
def ValueOf {α : Type} [Inhabited α] (v : Option α) : α :=
  match v with
  | some x => x
  | none => default

/-- The collaborators of the file, as seen through `*fi.CloudupContext` and
the `vfs` and `acls` packages. `W` is the state of the storage world and `T`
the state of the Terraform target; every call that may touch one of them
takes it and returns it. -/
structure Env (W T : Type) where
  /-- The call `vfs.Context.BuildVfsPath(base)` -/
  BuildVfsPath : String → Except ExtErr Path
  /-- The field `c.T.ClusterConfigBase` -/
  ClusterConfigBase : Path
  /-- The call `p.Join(rel)` -/
  Join : Path → String → Path
  /-- The call `p.ReadFile()` -/
  ReadFile : Path → W → Except ExtErr Bytes × W
  /-- The call `p.WriteFile(ctx, bytes.NewReader(data), acl)` -/
  WriteFile : Path → Bytes → Option ACL → W → Except ExtErr Unit × W
  /-- The method `IsPublic()` of an `*vfs.S3Path` or `*vfs.MemFSPath` -/
  IsPublic : Path → W → Except ExtErr Bool × W
  /-- The call `acls.GetACL(ctx, p, c.T.Cluster)` -/
  GetACL : Path → W → Except ExtErr (Option ACL) × W
  /-- The type assertion `p.(vfs.TerraformPath)`, and for a path that passes
  it the method `RenderTerraform(&t.TerraformWriter, name, reader, acl)`. -/
  TerraformPath : Path →
    Option (String → Bytes → Option ACL → T → W → Except ExtErr Unit × T × W)

/-! ## The functions of managedfile.go -/

/-- The function `getBasePath` (lines 183-194). -/
def getBasePath {W T : Type} (c : Env W T) (e : ManagedFile) : Except Err Path :=
  let base := ValueOf e.Base
  if base ≠ "" then
    match c.BuildVfsPath base with
    | .error err => .error (.parsingBase base err)
    | .ok p => .ok p
  else
    .ok c.ClusterConfigBase

/-- The public-readability block of `Find` for one backend type (lines 79-89
for `*vfs.S3Path`, 91-101 for `*vfs.MemFSPath`): `isType` is the outcome of
the type assertion. On success it returns the updated `actual` and `e`. -/
def findPublicStep {W T : Type} (c : Env W T) (isType : Bool) (filePath : Path)
    (actual e : ManagedFile) (w : W) : Except Err (ManagedFile × ManagedFile) × W :=
  if isType then
    match c.IsPublic filePath w with
    | (.error err, w1) => (.error (.ext err), w1)
    | (.ok pub, w1) =>
      let actual1 := { actual with PublicACL := some pub }
      let e1 := if e.PublicACL = none then { e with PublicACL := some false } else e
      (.ok (actual1, e1), w1)
  else
    (.ok (actual, e), w)

/-- The type assertion `filePath.(*vfs.S3Path)`. -/
def Path.isS3 : Path → Bool
  | .S3Path _ => true
  | _ => false

/-- The type assertion `filePath.(*vfs.MemFSPath)`. -/
def Path.isMemFS : Path → Bool
  | .MemFSPath _ _ => true
  | _ => false

/-- The method `Find` (lines 51-107). It returns the `(*ManagedFile, error)`
pair (`.ok none` is `nil, nil`), the receiver `e` as the call leaves it, and
the storage world. -/
def Find {W T : Type} (c : Env W T) (e : ManagedFile) (w : W) :
    Except Err (Option ManagedFile) × ManagedFile × W :=
  match getBasePath c e with
  | .error err => (.error err, e, w)
  | .ok managedFiles =>
    let location := ValueOf e.Location
    if location = "" then (.ok none, e, w)
    else
      let filePath := c.Join managedFiles location
      match c.ReadFile filePath w with
      | (.error err, w1) =>
        if err.notExist then (.ok none, e, w1) else (.error (.ext err), e, w1)
      | (.ok existingData, w1) =>
        let actual : ManagedFile :=
          { Name := e.Name, Lifecycle := "", Base := e.Base, Location := e.Location,
            Contents := some (NewBytesResource existingData), PublicACL := none }
        match findPublicStep c filePath.isS3 filePath actual e w1 with
        | (.error err, w2) => (.error err, e, w2)
        | (.ok (actual1, e1), w2) =>
          match findPublicStep c filePath.isMemFS filePath actual1 e1 w2 with
          | (.error err, w3) => (.error err, e1, w3)
          | (.ok (actual2, e2), w3) =>
            (.ok (some { actual2 with Lifecycle := e2.Lifecycle }), e2, w3)

/-- The method `CheckChanges` (lines 113-123); `a = none` is a nil `a`. -/
def CheckChanges (a : Option ManagedFile) (e changes : ManagedFile) : Except Err Unit := do
  if a.isSome then
    if changes.Name.isSome then
      throw (.CannotChangeField "Name")
  if e.Contents.isNone then
    throw (.FieldRequired "Contents" "")
  return ()

/-- The value `&vfs.S3Acl{RequestACL: fi.PtrTo("public-read")}`. -/
def publicReadACL : ACL := .S3Acl (some "public-read")

/-- The method `getACL` (lines 125-149). -/
def getACL {W T : Type} (c : Env W T) (e : ManagedFile) (p : Path) (w : W) :
    Except Err (Option ACL) × W :=
  if ValueOf e.PublicACL then
    match p with
    | .S3Path _ => (.ok (some publicReadACL), w)
    | .MemFSPath _ clusterReadable =>
      if !clusterReadable then (.error (.testOnlyPath p.PathStr), w)
      else (.ok (some publicReadACL), w)
    | .Other _ => (.error (.noPublicACL p.PathStr), w)
  else
    match c.GetACL p w with
    | (.error err, w1) => (.error (.ext err), w1)
    | (.ok acl, w1) => (.ok acl, w1)

/-- The method `Render` (lines 151-181). `fi.ResourceAsBytes` opens the
resource it is given, so a nil `e.Contents` aborts the call. -/
def Render {W T : Type} (c : Env W T) (_a : Option ManagedFile) (e _changes : ManagedFile)
    (w : W) : Except Err Unit × W :=
  let location := ValueOf e.Location
  if location = "" then (.error (.RequiredField "Location"), w)
  else
    match e.Contents with
    | none => (.error .nilDereference, w)
    | some contents =>
      match contents.AsBytes with
      | .error err => (.error (.readingContents err), w)
      | .ok data =>
        match getBasePath c e with
        | .error err => (.error err, w)
        | .ok p0 =>
          let p := c.Join p0 location
          match getACL c e p w with
          | (.error err, w1) => (.error err, w1)
          | (.ok acl, w1) =>
            match c.WriteFile p data acl w1 with
            | (.error err, w2) => (.error (.creating location err), w2)
            | (.ok _, w2) => (.ok (), w2)

/-- The method `RenderTerraform` (lines 197-229); `enabled` is
`featureflag.TerraformManagedFiles.Enabled()` and `t` the Terraform target. -/
def RenderTerraform {W T : Type} (c : Env W T) (enabled : Bool) (t : T)
    (a : Option ManagedFile) (e changes : ManagedFile) (w : W) : Except Err Unit × T × W :=
  if !enabled then
    let r := Render c a e changes w
    (r.1, t, r.2)
  else
    let location := ValueOf e.Location
    if location = "" then (.error (.RequiredField "Location"), t, w)
    else
      match getBasePath c e with
      | .error err => (.error err, t, w)
      | .ok p0 =>
        let p := c.Join p0 location
        match getACL c e p w with
        | (.error err, w1) => (.error err, t, w1)
        | (.ok acl, w1) =>
          match c.TerraformPath p with
          | none => (.error (.notTerraformPath p), t, w1)
          | some renderTerraform =>
            match e.Contents with
            | none => (.error .nilDereference, t, w1)
            | some contents =>
              match contents.Open with
              | .error err => (.error (.ext err), t, w1)
              | .ok reader =>
                match e.Name with
                | none => (.error .nilDereference, t, w1)
                | some name =>
                  match renderTerraform name reader acl t w1 with
                  | (.error err, t1, w2) => (.error (.ext err), t1, w2)
                  | (.ok _, t1, w2) => (.ok (), t1, w2)

/-! ## A small concrete backend

An in-memory world used to run the functions on concrete inputs: objects are
kept in a list, newest first. -/

/-- One stored object: where it is, its bytes and the ACL it was written with. -/
structure StoredObject where
  path : Path
  data : Bytes
  acl : Option ACL

/-- The storage world of the concrete backend. -/
abbrev Store := List StoredObject

/-- The Terraform target of the concrete backend: the declarations emitted. -/
abbrev TfOut := List (String × Bytes × Option ACL)

/-- The newest object stored at `p`, if any. -/
def Store.lookup (w : Store) (p : Path) : Option StoredObject :=
  w.find? (fun o => decide (o.path = p))

/-- The concrete backend. `BuildVfsPath` knows an S3 root, a MemFS root that
is not cluster-readable and a local root, and rejects every other string;
`aclQueryOk` says whether the public-readability query of the object store
answers or fails. -/
def memEnv (aclQueryOk : Bool) : Env Store TfOut where
  BuildVfsPath base :=
    if base = "s3://bucket" then .ok (.S3Path "s3://bucket")
    else if base = "memfs://tests" then .ok (.MemFSPath "memfs://tests" false)
    else if base = "file:///tmp" then .ok (.Other "file:///tmp")
    else .error { msg := "unknown / unhandled path type", notExist := false }
  ClusterConfigBase := .S3Path "s3://state/cluster"
  Join p rel :=
    match p with
    | .S3Path s => .S3Path (s ++ "/" ++ rel)
    | .MemFSPath s cr => .MemFSPath (s ++ "/" ++ rel) cr
    | .Other s => .Other (s ++ "/" ++ rel)
  ReadFile p w :=
    match Store.lookup w p with
    | some o => (.ok o.data, w)
    | none => (.error { msg := "file does not exist", notExist := true }, w)
  WriteFile p data acl w := (.ok (), { path := p, data := data, acl := acl } :: w)
  IsPublic p w :=
    if aclQueryOk then
      match Store.lookup w p with
      | some o => (.ok (decide (o.acl = some publicReadACL)), w)
      | none => (.error { msg := "file does not exist", notExist := true }, w)
    else (.error { msg := "AccessDenied", notExist := false }, w)
  GetACL _ w := (.ok none, w)
  TerraformPath p :=
    match p with
    | .Other _ => none
    | _ => some (fun name reader acl t w => (.ok (), (name, reader, acl) :: t, w))

/-! ## Concrete specs -/

/-- A resource that can be neither opened nor materialised. -/
def unreadableResource : Resource :=
  { Open := .error { msg := "permission denied", notExist := false },
    AsBytes := .error { msg := "permission denied", notExist := false } }

/-- An existing object named `old`. -/
def specOld : ManagedFile :=
  { Name := some "old", Lifecycle := "Sync", Base := none, Location := some "config/foo.yaml",
    Contents := some (NewBytesResource [97, 58, 32, 49]), PublicACL := some false }

/-- A desired spec named `new` with no Contents. -/
def specRenamed : ManagedFile :=
  { Name := some "new", Lifecycle := "Sync", Base := none, Location := some "config/foo.yaml",
    Contents := none, PublicACL := none }

/-- A delta that carries only the new name. -/
def deltaName : ManagedFile :=
  { Name := some "new", Lifecycle := "", Base := none, Location := none,
    Contents := none, PublicACL := none }

/-- A spec with no Location, a Base that does not parse and unreadable Contents. -/
def specNoLocation : ManagedFile :=
  { Name := some "f", Lifecycle := "Sync", Base := some "bogus://x", Location := none,
    Contents := some unreadableResource, PublicACL := some true }

/-- A spec asking for a public object on the MemFS test root, with Contents
that cannot be read. -/
def specPublicUnreadable : ManagedFile :=
  { Name := some "f", Lifecycle := "Sync", Base := some "memfs://tests", Location := some "k",
    Contents := some unreadableResource, PublicACL := some true }

/-- A spec asking for a public object on the MemFS test root, with readable
Contents. -/
def specPublicOnTests : ManagedFile :=
  { Name := some "f", Lifecycle := "Sync", Base := some "memfs://tests", Location := some "k",
    Contents := some (NewBytesResource [104, 105]), PublicACL := some true }

/-- A spec with no Location and no Base. -/
def specNoLocationDefaultBase : ManagedFile :=
  { Name := some "f", Lifecycle := "Sync", Base := none, Location := some "",
    Contents := none, PublicACL := none }

/-- A backend whose reads fail with a permission error. -/
def deniedEnv : Env Store TfOut :=
  { memEnv true with
    ReadFile := fun _ w => (.error { msg := "AccessDenied", notExist := false }, w) }

/-- The observed state `Find` builds from the spec `e`, the bytes read and the
answer of the public-readability query (`none` when no query is made). -/
def observedState (e : ManagedFile) (data : Bytes) (pub : Option Bool) : ManagedFile :=
  { Name := e.Name, Lifecycle := e.Lifecycle, Base := e.Base, Location := e.Location,
    Contents := some (NewBytesResource data), PublicACL := pub }

/-- The spec `e` after lines 86-88 (or 98-100). -/
def defaultPublicACL (e : ManagedFile) : ManagedFile :=
  if e.PublicACL = none then { e with PublicACL := some false } else e

/-- A spec on the S3 root with PublicACL unset. -/
def specOnS3 : ManagedFile :=
  { Name := some "f", Lifecycle := "Sync", Base := some "s3://bucket", Location := some "k",
    Contents := some (NewBytesResource [104, 105]), PublicACL := none }

/-- A spec on the local root with PublicACL unset. -/
def specOnLocal : ManagedFile :=
  { Name := some "f", Lifecycle := "Sync", Base := some "file:///tmp", Location := some "k",
    Contents := some (NewBytesResource [104, 105]), PublicACL := none }

/-- The backend reads back what was written: after a successful write of
`data` at `p`, reading `p` returns `data`. -/
def ReadsBack {W T : Type} (c : Env W T) : Prop :=
  ∀ (p : Path) (data : Bytes) (acl : Option ACL) (w w1 : W),
    c.WriteFile p data acl w = (.ok (), w1) → (c.ReadFile p w1).1 = .ok data

/-! ## Theorems: CheckChanges -/

/-- C1: for an existing object and a desired spec whose Name differs from the
object's, so that the delta has Name set, `CheckChanges` fails with
`CannotChangeField("Name")`, whatever the other fields are. -/
theorem CheckChanges_name_immutable (actual desired delta : ManagedFile)
    (_hne : desired.Name ≠ actual.Name) (hdelta : delta.Name ≠ none) :
    CheckChanges (some actual) desired delta = .error (.CannotChangeField "Name") := by
  cases hn : delta.Name with
  | none => exact absurd hn hdelta
  | some n => simp [CheckChanges, hn]; rfl

/-- C1 at a concrete input: renaming `old` to `new`, with no Contents. -/
theorem CheckChanges_name_immutable_witness :
    CheckChanges (some specOld) specRenamed deltaName = .error (.CannotChangeField "Name") :=
  CheckChanges_name_immutable specOld specRenamed deltaName (by decide) (by decide)

/-- The three outcomes of `CheckChanges`, by the two tests it makes. -/
theorem CheckChanges_cases (a : Option ManagedFile) (e changes : ManagedFile) :
    CheckChanges a e changes =
      if a.isSome = true ∧ changes.Name.isSome = true then .error (.CannotChangeField "Name")
      else if e.Contents.isNone = true then .error (.FieldRequired "Contents" "")
      else .ok () := by
  cases a <;> cases hn : changes.Name <;> cases hc : e.Contents <;>
    simp [CheckChanges, hn, hc] <;> rfl

/-- C2: `CheckChanges` succeeds exactly when (actual is absent or the delta has
no Name) and the desired Contents are present; when it does not fail on Name
and the desired Contents are absent it fails with the required-field error for
`Contents`; when it fails on Name the error is `CannotChangeField("Name")`; and
a Name in the delta is accepted when there is no object yet. -/
theorem CheckChanges_characterised (a : Option ManagedFile) (e changes : ManagedFile) :
    (CheckChanges a e changes = .ok () ↔
      (a = none ∨ changes.Name = none) ∧ e.Contents ≠ none) ∧
    ((a = none ∨ changes.Name = none) → e.Contents = none →
      CheckChanges a e changes = .error (.FieldRequired "Contents" "")) ∧
    (a ≠ none → changes.Name ≠ none →
      CheckChanges a e changes = .error (.CannotChangeField "Name")) ∧
    (e.Contents ≠ none → CheckChanges none e changes = .ok ()) := by
  rw [CheckChanges_cases a e changes, CheckChanges_cases none e changes]
  cases a <;> cases hn : changes.Name <;> cases hc : e.Contents <;> simp

/-! ## getACL -/

/-- C3: the decision table of `getACL`. With PublicACL true the result is the
`public-read` descriptor on an S3 path and on a cluster-readable MemFS path,
an error on a MemFS path that is not cluster-readable and an error on every
other path type, the world is untouched and the outcome is the same under any
other collaborators (the cluster ACL resolver is not consulted). With PublicACL
false or unset the result and the world are those of the cluster ACL resolver
at that path. -/
theorem getACL_decision_table {W T : Type} (c : Env W T) (e : ManagedFile) (p : Path) (w : W) :
    (e.PublicACL = some true →
      (∀ s, p = .S3Path s → getACL c e p w = (.ok (some publicReadACL), w)) ∧
      (∀ s, p = .MemFSPath s true → getACL c e p w = (.ok (some publicReadACL), w)) ∧
      (∀ s, p = .MemFSPath s false → getACL c e p w = (.error (.testOnlyPath s), w)) ∧
      (∀ s, p = .Other s → getACL c e p w = (.error (.noPublicACL s), w)) ∧
      (∀ c2 : Env W T, getACL c2 e p w = getACL c e p w)) ∧
    ((e.PublicACL = some false ∨ e.PublicACL = none) →
      (∀ acl w1, c.GetACL p w = (.ok acl, w1) → getACL c e p w = (.ok acl, w1)) ∧
      (∀ err w1, c.GetACL p w = (.error err, w1) → getACL c e p w = (.error (.ext err), w1))) := by
  constructor
  · intro hpub
    refine ⟨?_, ?_, ?_, ?_, ?_⟩
    · rintro s rfl; simp [getACL, hpub, ValueOf]
    · rintro s rfl; simp [getACL, hpub, ValueOf]
    · rintro s rfl; simp [getACL, hpub, ValueOf, Path.PathStr]
    · rintro s rfl; simp [getACL, hpub, ValueOf, Path.PathStr]
    · intro c2; simp [getACL, hpub, ValueOf]
  · intro hpriv
    have hv : ValueOf e.PublicACL = false := by
      rcases hpriv with h | h <;> simp [h, ValueOf]
    constructor
    · intro acl w1 h; simp [getACL, hv, h]
    · intro err w1 h; simp [getACL, hv, h]

/-! ## Render and RenderTerraform -/

/-- C5: with an empty or unset Location `Render` returns the required-field
error for `Location` and leaves the storage world as it was, under every
collaborator and whatever the other fields are. -/
theorem Render_empty_location {W T : Type} (c : Env W T) (a : Option ManagedFile)
    (e changes : ManagedFile) (w : W) (hloc : ValueOf e.Location = "") :
    Render c a e changes w = (.error (.RequiredField "Location"), w) := by
  simp [Render, hloc]

/-- C5 at a concrete input: no Location, a Base that does not parse and
unreadable Contents, on a store that already holds an object. -/
theorem Render_empty_location_witness :
    Render (memEnv true) none specNoLocation specNoLocation
        [{ path := .S3Path "s3://bucket/k", data := [1], acl := none }] =
      (.error (.RequiredField "Location"),
        [{ path := .S3Path "s3://bucket/k", data := [1], acl := none }]) :=
  Render_empty_location (memEnv true) none specNoLocation specNoLocation _ rfl

/-- C8: with the feature flag off `RenderTerraform` returns what `Render`
returns on the same arguments, leaves the storage world as `Render` leaves it,
and leaves the Terraform target as it was. -/
theorem RenderTerraform_disabled {W T : Type} (c : Env W T) (t : T) (a : Option ManagedFile)
    (e changes : ManagedFile) (w : W) :
    RenderTerraform c false t a e changes w =
      ((Render c a e changes w).1, t, (Render c a e changes w).2) := by
  simp [RenderTerraform]

/-- C6 as stated fails: Location is set, PublicACL is true and the resolved
path is a MemFS path that is not cluster-readable, yet `Render` returns the
content-read error of line 161, not the policy error of line 137. -/
theorem Render_public_unreadable_contents :
    ValueOf specPublicUnreadable.Location ≠ "" ∧
    specPublicUnreadable.PublicACL = some true ∧
    (getBasePath (memEnv true) specPublicUnreadable).map
        (fun b => (memEnv true).Join b (ValueOf specPublicUnreadable.Location)) =
      .ok (.MemFSPath "memfs://tests/k" false) ∧
    Render (memEnv true) none specPublicUnreadable specPublicUnreadable [] =
      (.error (.readingContents { msg := "permission denied", notExist := false }), []) ∧
    Render (memEnv true) none specPublicUnreadable specPublicUnreadable [] ≠
      (.error (.testOnlyPath "memfs://tests/k"), []) := by
  refine ⟨by decide, rfl, rfl, rfl, ?_⟩
  intro h
  have h1 := congrArg Prod.fst h
  have h2 : (Except.error (Err.readingContents { msg := "permission denied", notExist := false }) :
      Except Err Unit) = .error (.testOnlyPath "memfs://tests/k") := h1
  injection h2 with h3
  cases h3

/-- C6, amended: with a non-empty Location and PublicACL true, when the
resolved path is a MemFS path that is not cluster-readable, `Render` leaves the
storage world as it was and does not succeed, whether or not the object
exists; and when the Contents materialise it fails with the policy error
`the path is intended for use in tests`. -/
theorem Render_public_on_test_backend {W T : Type} (c : Env W T) (a : Option ManagedFile)
    (e changes : ManagedFile) (w : W) (base : Path) (s : String)
    (hloc : ValueOf e.Location ≠ "") (hpub : e.PublicACL = some true)
    (hbase : getBasePath c e = .ok base)
    (hpath : c.Join base (ValueOf e.Location) = .MemFSPath s false) :
    (Render c a e changes w).2 = w ∧
    (Render c a e changes w).1 ≠ .ok () ∧
    (∀ r data, e.Contents = some r → r.AsBytes = .ok data →
      Render c a e changes w = (.error (.testOnlyPath s), w)) := by
  have hacl : getACL c e (.MemFSPath s false) w = (.error (.testOnlyPath s), w) := by
    simp [getACL, hpub, ValueOf, Path.PathStr]
  cases hc : e.Contents with
  | none => simp [Render, hloc, hc]
  | some r =>
    cases hb : r.AsBytes with
    | error err =>
      have hr : Render c a e changes w = (.error (.readingContents err), w) := by
        simp [Render, hloc, hc, hb]
      rw [hr]
      refine ⟨rfl, by simp, ?_⟩
      intro r2 data h2 h3
      cases h2
      rw [hb] at h3
      cases h3
    | ok data => simp [Render, hloc, hc, hb, hbase, hpath, hacl]

/-- C6 amended, at a concrete input: a public object on the MemFS test root,
once on an empty store and with no actual, once over an existing object. -/
theorem Render_public_on_test_backend_witness :
    Render (memEnv true) none specPublicOnTests specPublicOnTests [] =
      (.error (.testOnlyPath "memfs://tests/k"), []) ∧
    (Render (memEnv true) (some specPublicOnTests) specPublicOnTests specPublicOnTests
        [{ path := .MemFSPath "memfs://tests/k" false, data := [1], acl := none }]).2 =
      [{ path := .MemFSPath "memfs://tests/k" false, data := [1], acl := none }] :=
  ⟨(Render_public_on_test_backend (memEnv true) none specPublicOnTests specPublicOnTests []
      (.MemFSPath "memfs://tests" false) "memfs://tests/k" (by decide) rfl rfl rfl).2.2
      (NewBytesResource [104, 105]) [104, 105] rfl rfl,
   (Render_public_on_test_backend (memEnv true) (some specPublicOnTests) specPublicOnTests
      specPublicOnTests _ (.MemFSPath "memfs://tests" false) "memfs://tests/k"
      (by decide) rfl rfl rfl).1⟩

/-! ## Find -/

/-- C4 as stated fails: the Location is unset, yet `Find` returns the error of
`getBasePath` (line 54) because the Base does not parse. -/
theorem Find_empty_location_unparsable_base :
    ValueOf specNoLocation.Location = "" ∧
    (Find (memEnv true) specNoLocation []).1 =
      .error (.parsingBase "bogus://x"
        { msg := "unknown / unhandled path type", notExist := false }) :=
  ⟨rfl, rfl⟩

/-- C4, amended: with an empty or unset Location, `Find` returns absent (no
object, no error, spec and storage untouched) when the Base is empty or unset
or parses, and returns the parse error of `getBasePath` when a non-empty Base
does not parse. -/
theorem Find_empty_location {W T : Type} (c : Env W T) (e : ManagedFile) (w : W)
    (hloc : ValueOf e.Location = "") :
    ((ValueOf e.Base = "" ∨ ∃ p, c.BuildVfsPath (ValueOf e.Base) = .ok p) →
      Find c e w = (.ok none, e, w)) ∧
    (∀ err, ValueOf e.Base ≠ "" → c.BuildVfsPath (ValueOf e.Base) = .error err →
      Find c e w = (.error (.parsingBase (ValueOf e.Base) err), e, w)) := by
  constructor
  · rintro (hb | ⟨p, hp⟩)
    · simp [Find, getBasePath, hb, hloc]
    · by_cases hb : ValueOf e.Base = ""
      · simp [Find, getBasePath, hb, hloc]
      · simp [Find, getBasePath, hb, hp, hloc]
  · intro err hb hp
    simp [Find, getBasePath, hb, hp]

/-- C4 amended, at concrete inputs: no Base, a Base that parses, and a Base
that does not. -/
theorem Find_empty_location_witness :
    Find (memEnv true) specNoLocationDefaultBase [] = (.ok none, specNoLocationDefaultBase, []) ∧
    Find (memEnv true) { specNoLocationDefaultBase with Base := some "s3://bucket" } [] =
      (.ok none, { specNoLocationDefaultBase with Base := some "s3://bucket" }, []) ∧
    Find (memEnv true) specNoLocation [] =
      (.error (.parsingBase "bogus://x"
        { msg := "unknown / unhandled path type", notExist := false }), specNoLocation, []) :=
  ⟨(Find_empty_location (memEnv true) specNoLocationDefaultBase [] rfl).1 (Or.inl rfl),
   (Find_empty_location (memEnv true)
      { specNoLocationDefaultBase with Base := some "s3://bucket" } [] rfl).1
      (Or.inr ⟨.S3Path "s3://bucket", rfl⟩),
   (Find_empty_location (memEnv true) specNoLocation [] rfl).2 _ (by decide) rfl⟩

/-- C9: with a resolved base and a non-empty Location, when reading the object
fails, `Find` returns absent with no error if the error is a not-found error
and returns that error otherwise; the spec is left as it was. -/
theorem Find_read_failure {W T : Type} (c : Env W T) (e : ManagedFile) (w w1 : W)
    (base : Path) (err : ExtErr)
    (hbase : getBasePath c e = .ok base) (hloc : ValueOf e.Location ≠ "")
    (hread : c.ReadFile (c.Join base (ValueOf e.Location)) w = (.error err, w1)) :
    (err.notExist = true → Find c e w = (.ok none, e, w1)) ∧
    (err.notExist = false → Find c e w = (.error (.ext err), e, w1)) := by
  constructor <;> intro hne <;> simp [Find, hbase, hloc, hread, hne]

/-- C9 at concrete inputs: the object is missing from an empty store, and a
backend that denies the read. -/
theorem Find_read_failure_witness :
    Find (memEnv true) specOld [] = (.ok none, specOld, []) ∧
    Find deniedEnv specOld [] =
      (.error (.ext { msg := "AccessDenied", notExist := false }), specOld, []) :=
  ⟨(Find_read_failure (memEnv true) specOld [] [] (.S3Path "s3://state/cluster")
      { msg := "file does not exist", notExist := true } rfl (by decide) rfl).1 rfl,
   (Find_read_failure deniedEnv specOld [] [] (.S3Path "s3://state/cluster")
      { msg := "AccessDenied", notExist := false } rfl (by decide) rfl).2 rfl⟩

/-- The result of `Find` when the object is read from an S3 or MemFS path and
the public-readability query answers `b`. -/
theorem Find_read_queried {W T : Type} (c : Env W T) (e : ManagedFile) (w w1 w2 : W)
    (base : Path) (data : Bytes) (b : Bool)
    (hbase : getBasePath c e = .ok base) (hloc : ValueOf e.Location ≠ "")
    (hread : c.ReadFile (c.Join base (ValueOf e.Location)) w = (.ok data, w1))
    (hkind : (c.Join base (ValueOf e.Location)).isS3 = true ∨
      (c.Join base (ValueOf e.Location)).isMemFS = true)
    (hquery : c.IsPublic (c.Join base (ValueOf e.Location)) w1 = (.ok b, w2)) :
    Find c e w = (.ok (some (observedState e data (some b))), defaultPublicACL e, w2) := by
  obtain ⟨path, hp⟩ : ∃ path, c.Join base (ValueOf e.Location) = path := ⟨_, rfl⟩
  rw [hp] at hread hkind hquery
  cases path with
  | S3Path s =>
    simp [Find, hbase, hloc, hp, hread, findPublicStep, Path.isS3, Path.isMemFS, hquery,
      observedState, defaultPublicACL]
    split <;> rfl
  | MemFSPath s cr =>
    simp [Find, hbase, hloc, hp, hread, findPublicStep, Path.isS3, Path.isMemFS, hquery,
      observedState, defaultPublicACL]
    split <;> rfl
  | Other s => simp [Path.isS3, Path.isMemFS] at hkind

/-- The result of `Find` when the object is read from a path that is neither
an S3 nor a MemFS path. -/
theorem Find_read_unqueried {W T : Type} (c : Env W T) (e : ManagedFile) (w w1 : W)
    (base : Path) (data : Bytes)
    (hbase : getBasePath c e = .ok base) (hloc : ValueOf e.Location ≠ "")
    (hread : c.ReadFile (c.Join base (ValueOf e.Location)) w = (.ok data, w1))
    (hs3 : (c.Join base (ValueOf e.Location)).isS3 = false)
    (hmem : (c.Join base (ValueOf e.Location)).isMemFS = false) :
    Find c e w = (.ok (some (observedState e data none)), e, w1) := by
  simp [Find, hbase, hloc, hread, findPublicStep, hs3, hmem, observedState]

/-- C10: when the object is read successfully, on an S3 or MemFS path whose
public-readability query answers `b` the observed PublicACL is `b` and the
spec's PublicACL becomes false if it was unset and otherwise stays (its other
fields stay); on any other path type the observed PublicACL is unset and the
spec is left as it was; in both cases the observed Name, Base, Location and
Lifecycle are the spec's. -/
theorem Find_public_acl {W T : Type} (c : Env W T) (e : ManagedFile) (w w1 : W)
    (base : Path) (data : Bytes)
    (hbase : getBasePath c e = .ok base) (hloc : ValueOf e.Location ≠ "")
    (hread : c.ReadFile (c.Join base (ValueOf e.Location)) w = (.ok data, w1)) :
    (∀ b w2,
      ((c.Join base (ValueOf e.Location)).isS3 = true ∨
        (c.Join base (ValueOf e.Location)).isMemFS = true) →
      c.IsPublic (c.Join base (ValueOf e.Location)) w1 = (.ok b, w2) →
      ∃ actual e2, Find c e w = (.ok (some actual), e2, w2) ∧
        actual.PublicACL = some b ∧
        (e.PublicACL = none → e2.PublicACL = some false) ∧
        (e.PublicACL ≠ none → e2.PublicACL = e.PublicACL) ∧
        (e2.Name = e.Name ∧ e2.Lifecycle = e.Lifecycle ∧ e2.Base = e.Base ∧
          e2.Location = e.Location ∧ e2.Contents = e.Contents) ∧
        actual.Name = e.Name ∧ actual.Base = e.Base ∧ actual.Location = e.Location ∧
        actual.Lifecycle = e.Lifecycle) ∧
    ((c.Join base (ValueOf e.Location)).isS3 = false →
      (c.Join base (ValueOf e.Location)).isMemFS = false →
      ∃ actual, Find c e w = (.ok (some actual), e, w1) ∧
        actual.PublicACL = none ∧
        actual.Name = e.Name ∧ actual.Base = e.Base ∧ actual.Location = e.Location ∧
        actual.Lifecycle = e.Lifecycle) := by
  constructor
  · intro b w2 hkind hquery
    refine ⟨observedState e data (some b), defaultPublicACL e,
      Find_read_queried c e w w1 w2 base data b hbase hloc hread hkind hquery, rfl, ?_, ?_, ?_,
      rfl, rfl, rfl, rfl⟩
    · intro h; simp [defaultPublicACL, h]
    · intro h; simp [defaultPublicACL, h]
    · unfold defaultPublicACL; split <;> simp
  · intro hs3 hmem
    exact ⟨observedState e data none,
      Find_read_unqueried c e w w1 base data hbase hloc hread hs3 hmem, rfl, rfl, rfl, rfl, rfl⟩

/-- C10 at concrete inputs: a world-readable object on the S3 root, and an
object on the local root. -/
theorem Find_public_acl_witness :
    (∃ actual e2,
      Find (memEnv true) specOnS3
          [{ path := .S3Path "s3://bucket/k", data := [7], acl := some publicReadACL }] =
        (.ok (some actual), e2,
          [{ path := .S3Path "s3://bucket/k", data := [7], acl := some publicReadACL }]) ∧
      actual.PublicACL = some true ∧ e2.PublicACL = some false ∧
      actual.Lifecycle = "Sync") ∧
    (∃ actual,
      Find (memEnv true) specOnLocal
          [{ path := .Other "file:///tmp/k", data := [7], acl := none }] =
        (.ok (some actual), specOnLocal,
          [{ path := .Other "file:///tmp/k", data := [7], acl := none }]) ∧
      actual.PublicACL = none ∧ actual.Name = some "f") := by
  constructor
  · obtain ⟨actual, e2, h1, h2, h3, -, -, -, -, -, h4⟩ :=
      (Find_public_acl (memEnv true) specOnS3
        [{ path := .S3Path "s3://bucket/k", data := [7], acl := some publicReadACL }] _
        (.S3Path "s3://bucket") [7] rfl (by decide) rfl).1 true _ (Or.inl rfl) rfl
    exact ⟨actual, e2, h1, h2, h3 rfl, h4⟩
  · obtain ⟨actual, h1, h2, h3, -⟩ :=
      (Find_public_acl (memEnv true) specOnLocal
        [{ path := .Other "file:///tmp/k", data := [7], acl := none }] _
        (.Other "file:///tmp") [7] rfl (by decide) rfl).2 rfl rfl
    exact ⟨actual, h1, h2, h3⟩

/-! ## Render followed by Find -/

/-- The concrete backend reads back what was written. -/
theorem memEnv_readsBack (aclQueryOk : Bool) : ReadsBack (memEnv aclQueryOk) := by
  intro p data acl w w1 h
  have hw : w1 = { path := p, data := data, acl := acl } :: w := by
    have := congrArg Prod.snd h
    exact this.symm
  subst hw
  simp [memEnv, Store.lookup]

/-- C7 as stated fails: on a backend that reads back what was written, `Render`
succeeds and writes the object at an S3 path, and the following `Find` returns
the error of the public-readability query (line 82) instead of an observed
state. -/
theorem Render_Find_query_fails :
    ReadsBack (memEnv false) ∧
    Render (memEnv false) none specOnS3 specOnS3 [] =
      (.ok (), [{ path := .S3Path "s3://bucket/k", data := [104, 105], acl := none }]) ∧
    (Find (memEnv false) specOnS3
        [{ path := .S3Path "s3://bucket/k", data := [104, 105], acl := none }]).1 =
      .error (.ext { msg := "AccessDenied", notExist := false }) :=
  ⟨memEnv_readsBack false, rfl, rfl⟩

/-- What a successful `Render` did: the Contents materialised as some `data`,
the base resolved, and `data` was written at the base joined with Location. -/
theorem Render_ok_inv {W T : Type} (c : Env W T) (a : Option ManagedFile)
    (e changes : ManagedFile) (w w1 : W)
    (hrender : Render c a e changes w = (.ok (), w1)) :
    ValueOf e.Location ≠ "" ∧
    ∃ r data base acl w0, e.Contents = some r ∧ r.AsBytes = .ok data ∧
      getBasePath c e = .ok base ∧
      c.WriteFile (c.Join base (ValueOf e.Location)) data acl w0 = (.ok (), w1) := by
  by_cases hloc : ValueOf e.Location = ""
  · simp [Render, hloc] at hrender
  refine ⟨hloc, ?_⟩
  cases hc : e.Contents with
  | none => simp [Render, hloc, hc] at hrender
  | some r =>
    cases hb : r.AsBytes with
    | error err => simp [Render, hloc, hc, hb] at hrender
    | ok data =>
      cases hbase : getBasePath c e with
      | error err => simp [Render, hloc, hc, hb, hbase] at hrender
      | ok base =>
        rcases hacl : getACL c e (c.Join base (ValueOf e.Location)) w with ⟨racl, w0⟩
        cases racl with
        | error err => simp [Render, hloc, hc, hb, hbase, hacl] at hrender
        | ok acl =>
          rcases hwr : c.WriteFile (c.Join base (ValueOf e.Location)) data acl w0 with ⟨rw, w2⟩
          cases rw with
          | error err => simp [Render, hloc, hc, hb, hbase, hacl, hwr] at hrender
          | ok u =>
            simp [Render, hloc, hc, hb, hbase, hacl, hwr] at hrender
            subst hrender
            exact ⟨r, data, base, acl, w0, rfl, hb, rfl, hwr⟩

/-- C7, amended: on a backend that reads back what was written and whose
public-readability query does not fail at the written path when that path is
an S3 or MemFS path, after a successful `Render` the following `Find` returns
an observed state whose Contents are the bytes the spec's Contents
materialised as, read from the path (base joined with Location) that `Render`
wrote. -/
theorem Render_Find_roundtrip {W T : Type} (c : Env W T) (a : Option ManagedFile)
    (e changes : ManagedFile) (w w1 : W)
    (hback : ReadsBack c)
    (hquery : ∀ base, getBasePath c e = .ok base →
      ((c.Join base (ValueOf e.Location)).isS3 = true ∨
        (c.Join base (ValueOf e.Location)).isMemFS = true) →
      ∃ b, (c.IsPublic (c.Join base (ValueOf e.Location))
        (c.ReadFile (c.Join base (ValueOf e.Location)) w1).2).1 = .ok b)
    (hrender : Render c a e changes w = (.ok (), w1)) :
    ∃ r data base acl w0 actual,
      e.Contents = some r ∧ r.AsBytes = .ok data ∧ getBasePath c e = .ok base ∧
      c.WriteFile (c.Join base (ValueOf e.Location)) data acl w0 = (.ok (), w1) ∧
      (c.ReadFile (c.Join base (ValueOf e.Location)) w1).1 = .ok data ∧
      (Find c e w1).1 = .ok (some actual) ∧
      actual.Contents = some (NewBytesResource data) := by
  obtain ⟨hloc, r, data, base, acl, w0, hc, hb, hbase, hwr⟩ :=
    Render_ok_inv c a e changes w w1 hrender
  have hrd := hback _ _ _ _ _ hwr
  rcases hread : c.ReadFile (c.Join base (ValueOf e.Location)) w1 with ⟨rr, w2⟩
  rw [hread] at hrd
  simp only at hrd
  subst hrd
  by_cases hkind : (c.Join base (ValueOf e.Location)).isS3 = true ∨
      (c.Join base (ValueOf e.Location)).isMemFS = true
  · obtain ⟨b, hb2⟩ := hquery base hbase hkind
    rw [hread] at hb2
    rcases hq : c.IsPublic (c.Join base (ValueOf e.Location)) w2 with ⟨rq, w3⟩
    rw [hq] at hb2
    simp only at hb2
    subst hb2
    refine ⟨r, data, base, acl, w0, observedState e data (some b), hc, hb, hbase, hwr, ?_, ?_, rfl⟩
    · rw [hread]
    · rw [Find_read_queried c e w1 w2 w3 base data b hbase hloc hread hkind hq]
  · have hs3 : (c.Join base (ValueOf e.Location)).isS3 = false := by
      cases h : (c.Join base (ValueOf e.Location)).isS3 <;> simp_all
    have hmem : (c.Join base (ValueOf e.Location)).isMemFS = false := by
      cases h : (c.Join base (ValueOf e.Location)).isMemFS <;> simp_all
    refine ⟨r, data, base, acl, w0, observedState e data none, hc, hb, hbase, hwr, ?_, ?_, rfl⟩
    · rw [hread]
    · rw [Find_read_unqueried c e w1 w2 base data hbase hloc hread hs3 hmem]

/-- C7 amended, at a concrete input: the spec on the S3 root is rendered to an
empty store and found again with its bytes. -/
theorem Render_Find_roundtrip_witness :
    ∃ actual,
      (Find (memEnv true) specOnS3
        [{ path := .S3Path "s3://bucket/k", data := [104, 105], acl := none }]).1 =
        .ok (some actual) ∧
      actual.Contents = some (NewBytesResource [104, 105]) := by
  obtain ⟨r, data, _, _, _, actual, hc, hb, -, -, -, hfind, hcont⟩ :=
    Render_Find_roundtrip (memEnv true) none specOnS3 specOnS3 []
      [{ path := .S3Path "s3://bucket/k", data := [104, 105], acl := none }]
      (memEnv_readsBack true)
      (by
        intro base hbase _
        have hb2 : (Except.ok (Path.S3Path "s3://bucket") : Except Err Path) = .ok base := hbase
        cases hb2
        exact ⟨false, rfl⟩)
      rfl
  have hr : some (NewBytesResource [104, 105]) = some r := hc
  cases hr
  have hd : (Except.ok [104, 105] : Except ExtErr Bytes) = .ok data := hb
  cases hd
  exact ⟨actual, hfind, hcont⟩

end ManagedFileTask
